import Mathlib

/-!
Shallow embedding of the dish-similarity API route (`src/unnamed/part_000`).

The route is a Next.js handler orchestrating a restaurant-ranking pipeline:
source-dish profiling, candidate search, per-candidate enrichment
(review mining, taste profiling), a single batched comparative-ranking model
call whose textual reply is parsed by `parseIntelligentAnalysisResponse`,
and final sorting/truncation of results.

External effects (the places search, the detail fetch, and every model
generation call) are modelled as oracle inputs: the theorems quantify over
all possible upstream responses.  JavaScript strings are modelled as Lean
`String`s; JS machine numbers that are only compared or defaulted
(ratings, coordinates) are modelled as `Rat`; JS falsiness of an optional
string/number is modelled explicitly (`falsyStr`, `falsyNum`).  `JSON.parse`
(a platform builtin, not repository code) is an oracle that either fails or
returns a well-typed value; the regex-based extraction that surrounds it is
modelled concretely on character lists.
-/

/-- Characters of `needle` appear at the head of `hay` (JS `startsWith` at
the current scan position). -/
def charsStartWith : List Char → List Char → Bool
  | _, [] => true
  | [], _ :: _ => false
  | a :: as, b :: bs => a == b && charsStartWith as bs

/-- JS `String.prototype.includes`: `needle` occurs contiguously in `hay`. -/
def charsHaveSub : List Char → List Char → Bool
  | [], needle => needle.isEmpty
  | h :: t, needle => charsStartWith (h :: t) needle || charsHaveSub t needle

/-- JS `line.includes(sub)` on Lean strings. -/
def strContains (s sub : String) : Bool :=
  charsHaveSub s.data sub.data

/-- Per-character lower-casing, modelling JS `toLowerCase` on the ASCII
names this code compares. -/
def lowerStr (s : String) : String :=
  String.mk (s.data.map Char.toLower)

/-- JS `hay.toLowerCase().includes(needle.toLowerCase())`. -/
def containsCI (hay needle : String) : Bool :=
  charsHaveSub (lowerStr hay).data (lowerStr needle).data

/-- JS `String.prototype.trim`: drop whitespace from both ends. -/
def trimChars (cs : List Char) : List Char :=
  ((cs.dropWhile Char.isWhitespace).reverse.dropWhile Char.isWhitespace).reverse

/-- `trim` on strings via `trimChars`. -/
def strTrim (s : String) : String :=
  String.mk (trimChars s.data)

/-- JS `String.prototype.split('\n')`: `""` splits to `[""]`, separators
delimit possibly-empty fields. -/
def splitNl : List Char → List (List Char)
  | [] => [[]]
  | c :: rest =>
    if c = '\n' then [] :: splitNl rest
    else
      match splitNl rest with
      | [] => [[c]]
      | l :: ls => (c :: l) :: ls

/-- Decimal value of a digit run, as produced by `parseInt` on a
`\d+` regex capture. -/
def digitsToNat (ds : List Char) : Nat :=
  ds.foldl (fun n c => n * 10 + (c.toNat - 48)) 0

/-- The literal marker searched by the confidence regex. -/
def confKey : List Char := "confidence=".data

/-- Leftmost match of `/confidence=(\d+)/`: scan left to right for the
literal `confidence=` followed by at least one digit; the capture is the
maximal digit run.  A `confidence=` occurrence not followed by a digit is
skipped, exactly as the regex engine advances past a failed match position. -/
def findConfidence : List Char → Option Nat
  | [] => none
  | c :: rest =>
    if charsStartWith (c :: rest) confKey then
      let ds := ((c :: rest).drop confKey.length).takeWhile Char.isDigit
      if ds.isEmpty then findConfidence rest else some (digitsToNat ds)
    else findConfidence rest

/-- The literal marker searched by the reason regex. -/
def reasonKey : List Char := "reason=".data

/-- Leftmost match of `/reason=(.+)$/`: first occurrence of `reason=` with
at least one character after it; the greedy capture is the whole remainder
of the line. -/
def findReason : List Char → Option (List Char)
  | [] => none
  | c :: rest =>
    if charsStartWith (c :: rest) reasonKey && !((c :: rest).drop reasonKey.length).isEmpty then
      some ((c :: rest).drop reasonKey.length)
    else findReason rest

/-- The `reasoning` value the parser derives from a line:
`reasonMatch ? reasonMatch[1].trim() : null`, with the subsequent
`!reasoning` falsiness check folded in (`none` = null or empty after trim). -/
def reasonOf (line : List Char) : Option String :=
  match findReason line with
  | none => none
  | some cs =>
    let t := trimChars cs
    if t.isEmpty then none else some (String.mk t)

/-- The per-restaurant marker `Restaurant ${i}:` (1-based index). -/
def restaurantMarker (i : Nat) : List Char :=
  ("Restaurant " ++ toString i ++ ":").data

/-- `responseText.split('\n').filter(line => line.trim())`. -/
def linesOf (t : String) : List (List Char) :=
  (splitNl t.data).filter (fun l => !(trimChars l).isEmpty)

structure MenuInsights where
  dishes : List String
  confidence : Nat
deriving DecidableEq

structure TasteProfile where
  flavors : List String
  style : String
  textures : Option (List String) := none
  specialties : Option (List String) := none
  confidence : Nat
deriving DecidableEq

/-- A well-typed value recovered by `JSON.parse` from the taste-profile
object substring (absent optional keys are `none`). -/
structure TasteProfileRaw where
  flavors : List String
  style : String
  textures : Option (List String) := none
  specialties : Option (List String) := none
deriving DecidableEq

structure Review where
  text : String
  rating : Rat
deriving DecidableEq

structure GooglePlace where
  name : String
  formatted_address : String := ""
  rating : Option Rat := none
  price_level : Option Rat := none
  place_id : String
  types : List String := []
deriving DecidableEq

structure SourceRestaurant where
  name : String
  address : String := ""
deriving DecidableEq

structure DishProfile where
  analysis : String := ""
  cuisineType : String
  flavorProfile : List String := []
  cookingStyle : String := ""
deriving DecidableEq

structure DetailedRestaurant where
  name : String
  address : String := ""
  rating : Option Rat := none
  priceLevel : Option Rat := none
  placeId : String := ""
  types : List String := []
  phone : Option String := none
  website : Option String := none
  menuInsights : MenuInsights := { dishes := [], confidence := 0 }
  tasteProfile : TasteProfile := { flavors := [], style := "Unknown", confidence := 0 }
deriving DecidableEq

structure DishAvailabilityVerdict where
  hasExactDish : Bool
  hasSimilarDish : Bool
  confidence : Nat
  reasoning : String
deriving DecidableEq

/-- Structured form of the `Error` values thrown by
`parseIntelligentAnalysisResponse`; each constructor carries exactly the
data interpolated into the corresponding message template. -/
inductive AnalysisError where
  /-- `Failed to parse intelligent analysis for restaurant ${i+1}: ${name}.
  Line: ${line}. ...` — a line was found but confidence/reason extraction
  failed. -/
  | parseFailed (idx : Nat) (restaurantName : String) (line : String)
  /-- `AI failed to analyze restaurant ${i+1}: ${name}. Missing from
  response.` -/
  | missing (idx : Nat) (restaurantName : String)
  /-- `Analysis incomplete: Expected ${n} results, got ${m}` -/
  | incomplete (expected got : Nat)
deriving DecidableEq

/-- The per-restaurant loop of `parseIntelligentAnalysisResponse`:
restaurant `i` (0-based) looks for a line containing `Restaurant ${i+1}:`,
extracts the booleans by literal substring test, the confidence by regex
and the reason by regex, throwing a structured error when the line is
missing or confidence/reason cannot be extracted. -/
def parseLoop (lines : List (List Char)) :
    List DetailedRestaurant → Nat → Except AnalysisError (List DishAvailabilityVerdict)
  | [], _ => .ok []
  | r :: rest, i =>
    match lines.find? (fun l => charsHaveSub l (restaurantMarker (i + 1))) with
    | none => .error (.missing (i + 1) r.name)
    | some line =>
      match findConfidence line with
      | none => .error (.parseFailed (i + 1) r.name (String.mk line))
      | some c =>
        match reasonOf line with
        | none => .error (.parseFailed (i + 1) r.name (String.mk line))
        | some rsn =>
          match parseLoop lines rest (i + 1) with
          | .error e => .error e
          | .ok tail =>
            .ok ({ hasExactDish := charsHaveSub line "hasExact=true".data,
                   hasSimilarDish := charsHaveSub line "hasSimilar=true".data,
                   confidence := min (max c 0) 100,
                   reasoning := rsn } :: tail)

/-- `parseIntelligentAnalysisResponse(responseText, restaurants)`:
split into non-blank lines, run the per-restaurant loop, and apply the
final length check. -/
def parseIntelligentAnalysisResponse (responseText : String)
    (restaurants : List DetailedRestaurant) :
    Except AnalysisError (List DishAvailabilityVerdict) :=
  let lines := linesOf responseText
  match parseLoop lines restaurants 0 with
  | .error e => .error e
  | .ok results =>
    if results.length ≠ restaurants.length then
      .error (.incomplete restaurants.length results.length)
    else .ok results

/-- Greedy tail of a bracket regex: keep consuming characters up to and
including the LAST occurrence of the closing character; `none` when no
closing character occurs. -/
def upToLastClose (clc : Char) : List Char → Option (List Char)
  | [] => none
  | c :: rest =>
    match upToLastClose clc rest with
    | some t => some (c :: t)
    | none => if c == clc then some [c] else none

/-- Leftmost greedy match of `/\[[\s\S]*\]/` (resp. the `\x7b..\x7d`
object form): substring from the first opening character through the last
closing character at or after it. -/
def jsonSlice (opc clc : Char) (cs : List Char) : Option (List Char) :=
  match cs.dropWhile (fun c => c != opc) with
  | [] => none
  | c :: rest => upToLastClose clc (c :: rest)

/-- `extractMenuFromReviews(reviews)`.  `gen` is the outcome of the single
model call (`error` = the call or the `generations[0].text` access threw);
`parseArray` is the `JSON.parse` oracle for the extracted array substring.
The second component of the result records whether the model call was
reached. -/
def extractMenuFromReviews (reviews : List Review)
    (gen : Except Unit String)
    (parseArray : String → Except Unit (List String)) :
    MenuInsights × Bool :=
  if reviews.length = 0 then ({ dishes := [], confidence := 0 }, false)
  else
    match gen with
    | .error _ => ({ dishes := [], confidence := 10 }, true)
    | .ok t =>
      match jsonSlice '[' ']' (trimChars t.data) with
      | none => ({ dishes := [], confidence := 10 }, true)
      | some cs =>
        match parseArray (String.mk cs) with
        | .error _ => ({ dishes := [], confidence := 10 }, true)
        | .ok dishes =>
          ({ dishes := dishes.take 15,
             confidence := if dishes.length > 0 then min (dishes.length * 10) 90 else 10 },
           true)

/-- `extractTasteProfile(reviews, restaurantName)`; oracles as in
`extractMenuFromReviews`.  The spread `{...profile, confidence}` is the
record update with the recomputed confidence. -/
def extractTasteProfile (reviews : List Review) (_restaurantName : String)
    (gen : Except Unit String)
    (parseObject : String → Except Unit TasteProfileRaw) :
    TasteProfile × Bool :=
  if reviews.length = 0 then
    ({ flavors := [], style := "Unknown", confidence := 0 }, false)
  else
    match gen with
    | .error _ => ({ flavors := [], style := "Unknown", confidence := 20 }, true)
    | .ok t =>
      match jsonSlice '\x7b' '\x7d' (trimChars t.data) with
      | none => ({ flavors := [], style := "Unknown", confidence := 20 }, true)
      | some cs =>
        match parseObject (String.mk cs) with
        | .error _ => ({ flavors := [], style := "Unknown", confidence := 20 }, true)
        | .ok profile =>
          ({ flavors := profile.flavors, style := profile.style,
             textures := profile.textures, specialties := profile.specialties,
             confidence := if reviews.length > 3 then 80 else 50 }, true)

/-- JS `Array.prototype.filter` with the `(element, index, array)` callback
shape, as used by the dedup step. -/
def filterWithIndex (l : List α) (pred : α → Nat → Bool) : List α :=
  (l.enum.filter (fun ip => pred ip.2 ip.1)).map (·.2)

/-- The Candidate Locator dedup/truncate step:
`allPlaces.filter((place, index, self) => index === self.findIndex(p =>
p.place_id === place.place_id)).slice(0, 12)`. -/
def uniquePlaces (allPlaces : List GooglePlace) : List GooglePlace :=
  (filterWithIndex allPlaces (fun place index =>
      allPlaces.findIdx? (fun p => p.place_id == place.place_id) == some index)).take 12

/-- JS falsiness of an optional string field (`undefined` or `""`). -/
def falsyStr : Option String → Bool
  | none => true
  | some s => s.isEmpty

/-- JS falsiness of an optional numeric field (`undefined` or `0`). -/
def falsyNum : Option Rat → Bool
  | none => true
  | some q => q == 0

/-- The guard `sourceRestaurant && sourceRestaurant.name !== 'Address not
specified'` deciding whether the source-dish profiling call is attempted. -/
def shouldAnalyzeSource : Option SourceRestaurant → Bool
  | none => false
  | some r => r.name != "Address not specified"

structure ReqBody where
  dish : Option String := none
  restaurant : Option SourceRestaurant := none
  latitude : Option Rat := none
  longitude : Option Rat := none
  radius : Option Rat := none
deriving DecidableEq

/-- Upstream effects of one request, universally quantified in the
theorems: environment keys, the source-profiling call, the per-query
places search, the per-place detail fetch (with `none` = fetch failed =
the `null` sentinel), and the single ranking generation call. -/
structure Oracles where
  placesKeySet : Bool
  cohereKeySet : Bool
  profile : Except Unit DishProfile
  search : String → Except Unit (List GooglePlace)
  details : GooglePlace → Option DetailedRestaurant
  rankerGen : Except Unit String

/-- Which upstream stages a run actually reached. -/
structure Trace where
  upstreamCalled : Bool
  profileAttempted : Bool
  rankerInvoked : Bool
deriving DecidableEq

structure RankedResult where
  name : String
  rating : Option Rat := none
  dishAvailability : DishAvailabilityVerdict
deriving DecidableEq

inductive ServerFailure where
  | placesKeyMissing
  | cohereKeyMissing
  | generationFailed
  | analysisFailed (e : AnalysisError)
deriving DecidableEq

inductive ApiResponse where
  | badRequest (msg : String)
  | serverError (f : ServerFailure)
  | ok (restaurants : List RankedResult) (note : Option String)
deriving DecidableEq

/-- Source-dish profiling outcome seen by the rest of the handler: `null`
unless the guard passes and the profiling call succeeds (a failing call is
caught with a warning and leaves `dishProfile = null`). -/
def dishProfileOf (body : ReqBody) (env : Oracles) : Option DishProfile :=
  if shouldAnalyzeSource body.restaurant then env.profile.toOption else none

/-- The `searchQueries` array (the cuisine query is included only when a
profile exists and its `cuisineType` is truthy). -/
def searchQueriesOf (body : ReqBody) (env : Oracles) : List String :=
  let originalDish := body.dish.getD ""
  ["\"" ++ originalDish ++ "\" restaurant", originalDish ++ " food"] ++
    (match dishProfileOf body env with
     | some p => if p.cuisineType.isEmpty then [] else [p.cuisineType ++ " restaurant"]
     | none => []) ++ ["restaurant"]

/-- `allPlaces`: each query's results capped at 5, a failed query
contributing `[]`, all flattened in query order. -/
def allPlacesOf (body : ReqBody) (env : Oracles) : List GooglePlace :=
  ((searchQueriesOf body env).map (fun q =>
    match env.search q with
    | .ok results => results.take 5
    | .error _ => [])).flatten

/-- `validRestaurants`: the first 8 deduplicated places enriched, the
`null` results of failed detail fetches filtered out. -/
def validRestaurantsOf (body : ReqBody) (env : Oracles) : List DetailedRestaurant :=
  ((uniquePlaces (allPlacesOf body env)).take 8).filterMap env.details

/-- The source-restaurant exclusion filter:
`validRestaurants.filter(r => !sourceRestaurant ||
!r.name.toLowerCase().includes(sourceRestaurant.name.toLowerCase()))`. -/
def sourceFilter (src : Option SourceRestaurant) (rs : List DetailedRestaurant) :
    List DetailedRestaurant :=
  rs.filter (fun r =>
    match src with
    | none => true
    | some s => !(containsCI r.name s.name))

/-- `filteredRestaurants`, the list passed to the Comparative Ranker. -/
def filteredRestaurantsOf (body : ReqBody) (env : Oracles) : List DetailedRestaurant :=
  sourceFilter body.restaurant (validRestaurantsOf body env)

/-- `(x.rating || 0)` in the sort comparator. -/
def ratingOr0 (r : Option Rat) : Rat := r.getD 0

/-- The sort comparator as a `le` relation: `resLE a b` holds when the JS
comparator `(a, b)` returns a value `≤ 0`, i.e. `a` may precede `b`. -/
def resLE (a b : RankedResult) : Bool :=
  if a.dishAvailability.confidence ≠ b.dishAvailability.confidence then
    decide (b.dishAvailability.confidence < a.dishAvailability.confidence)
  else
    decide (ratingOr0 b.rating ≤ ratingOr0 a.rating)

/-- `restaurantResults`: each filtered restaurant zipped with its verdict
(`dishAvailabilityResults[index]`; the parser guarantees equal lengths on
the success path, under which indexing coincides with `zip`). -/
def rankedResultsOf (filtered : List DetailedRestaurant)
    (verdicts : List DishAvailabilityVerdict) : List RankedResult :=
  (filtered.zip verdicts).map (fun rv =>
    { name := rv.1.name, rating := rv.1.rating, dishAvailability := rv.2 })

/-- The `error` note of the early empty-result 200 response. -/
def noDataNote : String := "No restaurants found with sufficient data for analysis"

/-- The `POST /nearby` handler.  Validation and key checks come first; the
empty-list short-circuit tests `validRestaurants` BEFORE the source
exclusion filter; the Comparative Ranker (`intelligentDishAnalysis`) is
then invoked on the filtered list, its structured errors surfacing as 500
responses through the top-level catch; the success path sorts by the
comparator and truncates to 15. -/
def POST (body : ReqBody) (env : Oracles) : ApiResponse × Trace :=
  if falsyStr body.dish then
    (.badRequest "Dish name is required", ⟨false, false, false⟩)
  else if falsyNum body.latitude || falsyNum body.longitude then
    (.badRequest "Location is required", ⟨false, false, false⟩)
  else if !env.placesKeySet then
    (.serverError .placesKeyMissing, ⟨false, false, false⟩)
  else
    let profileAttempted := shouldAnalyzeSource body.restaurant
    let validRestaurants := validRestaurantsOf body env
    if validRestaurants.isEmpty then
      (.ok [] (some noDataNote), ⟨true, profileAttempted, false⟩)
    else
      let filtered := filteredRestaurantsOf body env
      if !env.cohereKeySet then
        (.serverError .cohereKeyMissing, ⟨true, profileAttempted, true⟩)
      else
        match env.rankerGen with
        | .error _ => (.serverError .generationFailed, ⟨true, profileAttempted, true⟩)
        | .ok text =>
          match parseIntelligentAnalysisResponse (strTrim text) filtered with
          | .error e => (.serverError (.analysisFailed e), ⟨true, profileAttempted, true⟩)
          | .ok verdicts =>
            (.ok (((rankedResultsOf filtered verdicts).mergeSort resLE).take 15) none,
             ⟨true, profileAttempted, true⟩)

/-- Whether a response is a 400 client error. -/
def ApiResponse.isBadRequest : ApiResponse → Bool
  | .badRequest _ => true
  | _ => false

/-- The restaurants list of a 200 response (`[]` for error responses). -/
def ApiResponse.restaurantsOf : ApiResponse → List RankedResult
  | .ok rs _ => rs
  | _ => []


/-! ## Helper lemmas about the ranking-response parser -/

/-- Success inversion for the parser loop: an `ok` result has one verdict
per restaurant, and verdict `k` is built from the first line containing
the `Restaurant ${k+1}:` marker, with extractable confidence and reason. -/
theorem parseLoop_ok_spec (lines : List (List Char)) :
    ∀ (rs : List DetailedRestaurant) (i : Nat) (l : List DishAvailabilityVerdict),
      parseLoop lines rs i = .ok l →
      l.length = rs.length ∧
      ∀ (k : Nat) (hk : k < l.length),
        ∃ line, lines.find? (fun s => charsHaveSub s (restaurantMarker (i + k + 1))) = some line ∧
          ∃ c rsn, findConfidence line = some c ∧ reasonOf line = some rsn ∧
            l.get ⟨k, hk⟩ = { hasExactDish := charsHaveSub line "hasExact=true".data,
                              hasSimilarDish := charsHaveSub line "hasSimilar=true".data,
                              confidence := min (max c 0) 100,
                              reasoning := rsn } := by
  intro rs
  induction rs with
  | nil =>
    intro i l h
    simp only [parseLoop] at h
    cases h
    exact ⟨rfl, fun k hk => absurd hk (by simp)⟩
  | cons r rest ih =>
    intro i l h
    simp only [parseLoop] at h
    split at h
    · cases h
    · rename_i line hfind
      split at h
      · cases h
      · rename_i c hconf
        split at h
        · cases h
        · rename_i rsn hrsn
          split at h
          · cases h
          · rename_i tail hrec
            cases h
            obtain ⟨hlen, hspec⟩ := ih (i + 1) tail hrec
            refine ⟨by simp [hlen], ?_⟩
            intro k hk
            cases k with
            | zero => exact ⟨line, hfind, c, rsn, hconf, hrsn, rfl⟩
            | succ k' =>
              have hk' : k' < tail.length := by simpa using Nat.lt_of_succ_lt_succ hk
              obtain ⟨line', hfind', c', rsn', hconf', hrsn', hget⟩ := hspec k' hk'
              have harith : i + 1 + k' + 1 = i + (k' + 1) + 1 := by omega
              rw [harith] at hfind'
              exact ⟨line', hfind', c', rsn', hconf', hrsn', hget⟩

/-- Error inversion for the parser loop: every error names some restaurant
`k` of the input (1-based index `i + k + 1` and its name), and is either a
`missing` error with no line containing that restaurant's marker, or a
`parseFailed` error carrying the found line, on which confidence or reason
extraction failed. -/
theorem parseLoop_error_spec (lines : List (List Char)) :
    ∀ (rs : List DetailedRestaurant) (i : Nat) (e : AnalysisError),
      parseLoop lines rs i = .error e →
      ∃ (k : Nat) (hk : k < rs.length),
        (e = .missing (i + k + 1) (rs.get ⟨k, hk⟩).name ∧
          lines.find? (fun s => charsHaveSub s (restaurantMarker (i + k + 1))) = none) ∨
        (∃ line, e = .parseFailed (i + k + 1) (rs.get ⟨k, hk⟩).name (String.mk line) ∧
          lines.find? (fun s => charsHaveSub s (restaurantMarker (i + k + 1))) = some line ∧
          (findConfidence line = none ∨ reasonOf line = none)) := by
  intro rs
  induction rs with
  | nil => intro i e h; simp only [parseLoop] at h; cases h
  | cons r rest ih =>
    intro i e h
    simp only [parseLoop] at h
    split at h
    · rename_i hfind
      cases h
      exact ⟨0, by simp, Or.inl ⟨rfl, hfind⟩⟩
    · rename_i line hfind
      split at h
      · rename_i hconf
        cases h
        exact ⟨0, by simp, Or.inr ⟨line, rfl, hfind, Or.inl hconf⟩⟩
      · rename_i c hconf
        split at h
        · rename_i hrsn
          cases h
          exact ⟨0, by simp, Or.inr ⟨line, rfl, hfind, Or.inr hrsn⟩⟩
        · rename_i rsn hrsn
          split at h
          · rename_i eI hrec
            cases h
            obtain ⟨k', hk', hcase⟩ := ih (i + 1) _ hrec
            have harith : i + 1 + k' + 1 = i + (k' + 1) + 1 := by omega
            refine ⟨k' + 1, by simpa using Nat.succ_lt_succ hk', ?_⟩
            rw [harith] at hcase
            exact hcase
          · cases h

/-- The final length re-check of `parseIntelligentAnalysisResponse` is
dead code: the loop already yields one verdict per restaurant, so the
wrapper is the loop. -/
theorem parse_eq_loop (t : String) (rs : List DetailedRestaurant) :
    parseIntelligentAnalysisResponse t rs = parseLoop (linesOf t) rs 0 := by
  unfold parseIntelligentAnalysisResponse
  cases h : parseLoop (linesOf t) rs 0 with
  | error e => simp only [h]
  | ok results => simp [h, (parseLoop_ok_spec _ _ _ _ h).1]

/-- C1: for every enriched-restaurant list and every model response text,
the Comparative Ranker's parser either returns a verdict list of length
exactly `N = restaurants.length` (one verdict per restaurant, aligned by
index), or fails with an error naming the affected restaurant by 1-based
index and name — and, when a marker line was found, carrying that line's
content; it never returns a list shorter than `N`. -/
theorem claim_C1_parser_full_or_named_error (t : String) (rs : List DetailedRestaurant) :
    match parseIntelligentAnalysisResponse t rs with
    | .ok l => l.length = rs.length
    | .error e =>
      ∃ (k : Nat) (hk : k < rs.length),
        (e = .missing (k + 1) (rs.get ⟨k, hk⟩).name ∧
          (linesOf t).find? (fun s => charsHaveSub s (restaurantMarker (k + 1))) = none) ∨
        (∃ line, e = .parseFailed (k + 1) (rs.get ⟨k, hk⟩).name (String.mk line) ∧
          line ∈ linesOf t ∧ charsHaveSub line (restaurantMarker (k + 1)) = true) := by
  rw [parse_eq_loop]
  cases h : parseLoop (linesOf t) rs 0 with
  | ok l => exact (parseLoop_ok_spec _ _ _ _ h).1
  | error e =>
    obtain ⟨k, hk, hcase⟩ := parseLoop_error_spec _ _ _ _ h
    refine ⟨k, hk, ?_⟩
    rcases hcase with ⟨he, hfind⟩ | ⟨line, he, hfind, _⟩
    · exact Or.inl ⟨by simpa using he, by simpa using hfind⟩
    · refine Or.inr ⟨line, by simpa using he, List.mem_of_find?_eq_some hfind, ?_⟩
      have := List.find?_some hfind
      simpa using this

/-- Sample enriched restaurant used in concrete runs. -/
def rSpice : DetailedRestaurant := { name := "Spice House" }

/-- Second sample enriched restaurant used in concrete runs. -/
def rDragon : DetailedRestaurant := { name := "Dragon Garden" }

/-- C4 counterexample: the claim asserts negative emitted confidence values
are clamped into `[0,100]` "rather than causing a failure", but the
`confidence=(\d+)` regex captures only unsigned digit runs, so on
`confidence=-5` the parser raises the fatal parse error instead of
returning a clamped verdict. -/
theorem claim_C4_counterexample :
    parseIntelligentAnalysisResponse
      "Restaurant 1: hasExact=false, hasSimilar=false, confidence=-5, reason=negative"
      [rSpice]
    = .error (.parseFailed 1 "Spice House"
        "Restaurant 1: hasExact=false, hasSimilar=false, confidence=-5, reason=negative") := rfl

/-- C4 (amended): every confidence value in a verdict list returned by the
parser lies in `[0,100]` — non-negative by construction and clamped above
at 100 (so an emitted `confidence=250` yields 100); however a negative
emitted value is not captured by the digits-only regex and triggers the
fatal parse error rather than being clamped. -/
theorem claim_C4_confidence_clamped (t : String) (rs : List DetailedRestaurant)
    (l : List DishAvailabilityVerdict)
    (h : parseIntelligentAnalysisResponse t rs = .ok l) :
    ∀ v ∈ l, v.confidence ≤ 100 := by
  rw [parse_eq_loop] at h
  obtain ⟨hlen, hspec⟩ := parseLoop_ok_spec _ _ _ _ h
  intro v hv
  obtain ⟨n, rfl⟩ := List.mem_iff_get.mp hv
  obtain ⟨k, hk⟩ := n
  obtain ⟨line, _, c, rsn, _, _, hget⟩ := hspec k hk
  rw [hget]
  exact min_le_right _ _

/-- C4 witness: a concrete parse whose model text emits `confidence=250`
succeeds and the resulting verdict respects the upper clamp. -/
theorem claim_C4_witness :
    ({ hasExactDish := true, hasSimilarDish := true, confidence := 100,
       reasoning := "big" } : DishAvailabilityVerdict).confidence ≤ 100 :=
  claim_C4_confidence_clamped
    "Restaurant 1: hasExact=true, hasSimilar=true, confidence=250, reason=big"
    [rSpice]
    [{ hasExactDish := true, hasSimilarDish := true, confidence := 100, reasoning := "big" }]
    rfl
    { hasExactDish := true, hasSimilarDish := true, confidence := 100, reasoning := "big" }
    (List.mem_singleton.mpr rfl)

/-- C10: in the parser, for every matched restaurant line, `hasExactDish`
(resp. `hasSimilarDish`) is true exactly when the found line contains the
literal substring `hasExact=true` (resp. `hasSimilar=true`); and the fatal
error is triggered only by a missing restaurant-marker line or an
unextractable confidence/reason — never by the boolean fields. -/
theorem claim_C10_boolean_fields (t : String) (rs : List DetailedRestaurant) :
    (∀ l, parseIntelligentAnalysisResponse t rs = .ok l →
      ∀ (k : Nat) (hk : k < l.length),
        ∃ line, (linesOf t).find? (fun s => charsHaveSub s (restaurantMarker (k + 1))) = some line ∧
          (l.get ⟨k, hk⟩).hasExactDish = charsHaveSub line "hasExact=true".data ∧
          (l.get ⟨k, hk⟩).hasSimilarDish = charsHaveSub line "hasSimilar=true".data) ∧
    (∀ e, parseIntelligentAnalysisResponse t rs = .error e →
      ∃ (k : Nat) (hk : k < rs.length),
        (e = .missing (k + 1) (rs.get ⟨k, hk⟩).name ∧
          (linesOf t).find? (fun s => charsHaveSub s (restaurantMarker (k + 1))) = none) ∨
        (∃ line, e = .parseFailed (k + 1) (rs.get ⟨k, hk⟩).name (String.mk line) ∧
          (linesOf t).find? (fun s => charsHaveSub s (restaurantMarker (k + 1))) = some line ∧
          (findConfidence line = none ∨ reasonOf line = none))) := by
  constructor
  · intro l h k hk
    rw [parse_eq_loop] at h
    obtain ⟨hlen, hspec⟩ := parseLoop_ok_spec _ _ _ _ h
    obtain ⟨line, hfind, c, rsn, _, _, hget⟩ := hspec k hk
    refine ⟨line, by simpa using hfind, ?_, ?_⟩ <;> rw [hget]
  · intro e h
    rw [parse_eq_loop] at h
    obtain ⟨k, hk, hcase⟩ := parseLoop_error_spec _ _ _ _ h
    exact ⟨k, hk, by simpa using hcase⟩

/-- C10 witness: a concrete parse where the line for restaurant 1 omits
`hasExact=`, yielding `false` without any error. -/
theorem claim_C10_witness :
    ∃ line, (linesOf "Restaurant 1: hasSimilar=true, confidence=40, reason=close match").find?
        (fun s => charsHaveSub s (restaurantMarker 1)) = some line ∧
      (([{ hasExactDish := false, hasSimilarDish := true, confidence := 40,
           reasoning := "close match" }] : List DishAvailabilityVerdict).get
          ⟨0, by decide⟩).hasExactDish = charsHaveSub line "hasExact=true".data ∧
      (([{ hasExactDish := false, hasSimilarDish := true, confidence := 40,
           reasoning := "close match" }] : List DishAvailabilityVerdict).get
          ⟨0, by decide⟩).hasSimilarDish = charsHaveSub line "hasSimilar=true".data :=
  (claim_C10_boolean_fields
      "Restaurant 1: hasSimilar=true, confidence=40, reason=close match" [rSpice]).1
    _ rfl 0 (by decide)

/-! ## Helper lemmas about the Candidate Locator dedup step -/

/-- A successful `findIdx?` names the first satisfying element: the element
at the reported index is also what `find?` returns. -/
theorem find?_of_findIdx? (p : α → Bool) :
    ∀ (l : List α) (s i : Nat), List.findIdx? p l s = some i →
      ∃ (k : Nat) (x : α), i = s + k ∧ l.get? k = some x ∧ l.find? p = some x := by
  intro l
  induction l with
  | nil => intro s i h; simp [List.findIdx?] at h
  | cons a t ih =>
    intro s i h
    rw [List.findIdx?] at h
    by_cases hpa : p a
    · rw [if_pos hpa] at h
      cases h
      exact ⟨0, a, by omega, rfl, by simp [List.find?, hpa]⟩
    · rw [if_neg hpa] at h
      obtain ⟨k, x, hik, hget, hfind⟩ := ih (s + 1) i h
      refine ⟨k + 1, x, by omega, by simpa using hget, ?_⟩
      simp only [List.find?]
      rw [Bool.eq_false_iff.mpr hpa]
      exact hfind

/-- The dedup output is a sublist of the merged input (order preserved,
elements drawn from the input). -/
theorem uniquePlaces_sublist (l : List GooglePlace) : (uniquePlaces l).Sublist l := by
  unfold uniquePlaces filterWithIndex
  refine (List.take_sublist _ _).trans ?_
  have h1 := (List.filter_sublist (p := fun ip => (l.findIdx?
      (fun p => p.place_id == (Prod.snd ip).place_id)) == some ip.1) l.enum).map Prod.snd
  simpa [List.enum_map_snd] using h1

/-- The dedup output never holds two entries with the same place
identifier. -/
theorem uniquePlaces_pairwise (l : List GooglePlace) :
    (uniquePlaces l).Pairwise (fun a b => a.place_id ≠ b.place_id) := by
  unfold uniquePlaces filterWithIndex
  apply List.Pairwise.sublist (List.take_sublist _ _)
  rw [List.pairwise_map]
  have hen : (l.enum).Pairwise (fun a b => a.1 ≠ b.1) := by
    have h1 : (l.enum.map Prod.fst).Nodup := by
      rw [List.enum_map_fst]; exact List.nodup_range _
    rw [List.Nodup, List.pairwise_map] at h1
    exact h1
  have hfil := List.Pairwise.sublist (List.filter_sublist (p := fun ip => (l.findIdx?
      (fun p => p.place_id == (Prod.snd ip).place_id)) == some ip.1) l.enum) hen
  refine hfil.imp_of_mem ?_
  intro a b ha hb hneq hpid
  apply hneq
  have hpa : l.findIdx? (fun p => p.place_id == a.2.place_id) = some a.1 := by
    simpa using (List.mem_filter.mp ha).2
  have hpb : l.findIdx? (fun p => p.place_id == b.2.place_id) = some b.1 := by
    simpa using (List.mem_filter.mp hb).2
  rw [hpid] at hpa
  rw [hpa] at hpb
  exact (Option.some_injective _ hpb).symm ▸ rfl

/-- Every dedup survivor is the first occurrence of its identifier in the
merged input. -/
theorem uniquePlaces_first_occurrence (l : List GooglePlace) :
    ∀ p ∈ uniquePlaces l, l.find? (fun q => q.place_id == p.place_id) = some p := by
  intro p hp
  unfold uniquePlaces filterWithIndex at hp
  have hp' := (List.take_sublist _ _).subset hp
  obtain ⟨⟨i, q⟩, hmem, rfl⟩ := List.mem_map.mp hp'
  have hidx : l.findIdx? (fun x => x.place_id == q.place_id) = some i := by
    simpa using (List.mem_filter.mp hmem).2
  obtain ⟨k, x, hik, hget, hfind⟩ := find?_of_findIdx? _ l 0 i hidx
  have henum : l[i]? = some q := List.mem_enum_iff_getElem?.mp (List.mem_filter.mp hmem).1
  rw [List.get?_eq_getElem?] at hget
  rw [show k = i by omega] at hget
  rw [henum] at hget
  cases hget
  exact hfind

/-- C5: for every merged list of search results, the Candidate Locator's
output contains no two entries with the same place identifier, keeps only
first occurrences (each survivor is exactly what a first-match search for
its identifier finds), preserves the merged order (sublist), and has
length at most 12. -/
theorem claim_C5_locator_dedup (allPlaces : List GooglePlace) :
    (uniquePlaces allPlaces).Pairwise (fun a b => a.place_id ≠ b.place_id) ∧
    (uniquePlaces allPlaces).length ≤ 12 ∧
    (uniquePlaces allPlaces).Sublist allPlaces ∧
    ∀ p ∈ uniquePlaces allPlaces,
      allPlaces.find? (fun q => q.place_id == p.place_id) = some p :=
  ⟨uniquePlaces_pairwise allPlaces,
   List.length_take_le _ _,
   uniquePlaces_sublist allPlaces,
   uniquePlaces_first_occurrence allPlaces⟩

/-- Concrete duplicate-bearing merged search-result list. -/
def placesABC : List GooglePlace :=
  [{ name := "a", place_id := "p1" }, { name := "b", place_id := "p1" },
   { name := "c", place_id := "p2" }]

/-- C5 witness: concrete duplicate-bearing input evaluated through the
dedup step; the first-occurrence property is instantiated at the surviving
first entry. -/
theorem claim_C5_witness :
    (uniquePlaces placesABC).Pairwise (fun a b => a.place_id ≠ b.place_id) ∧
    (uniquePlaces placesABC).length ≤ 12 ∧
    (uniquePlaces placesABC).Sublist placesABC ∧
    placesABC.find? (fun q =>
        q.place_id == ({ name := "a", place_id := "p1" } : GooglePlace).place_id)
      = some { name := "a", place_id := "p1" } :=
  ⟨(claim_C5_locator_dedup placesABC).1,
   (claim_C5_locator_dedup placesABC).2.1,
   (claim_C5_locator_dedup placesABC).2.2.1,
   (claim_C5_locator_dedup placesABC).2.2.2
     { name := "a", place_id := "p1" } (by decide)⟩

/-- C6: the Review Miner and Taste Profiler are total (they never raise:
every call, over all possible generation/parse outcomes, returns a plain
value).  On an empty review list they return their zero-confidence
defaults without reaching the model call (second component `false`); on a
model-call failure, a missing JSON substring, or a JSON parse failure they
return the documented defaults `{dishes: [], confidence: 10}` and
`{flavors: [], style: "Unknown", confidence: 20}` instead of propagating
the error. -/
theorem claim_C6_miner_profiler_defaults
    (reviews : List Review) (name : String)
    (gen : Except Unit String) (parseArray : String → Except Unit (List String))
    (parseObject : String → Except Unit TasteProfileRaw) :
    (reviews = [] →
      extractMenuFromReviews reviews gen parseArray
        = ({ dishes := [], confidence := 0 }, false) ∧
      extractTasteProfile reviews name gen parseObject
        = ({ flavors := [], style := "Unknown", confidence := 0 }, false)) ∧
    (reviews ≠ [] →
      ((gen = .error () ∨
        (∃ t, gen = .ok t ∧ jsonSlice '[' ']' (trimChars t.data) = none) ∨
        (∃ t cs, gen = .ok t ∧ jsonSlice '[' ']' (trimChars t.data) = some cs ∧
          parseArray (String.mk cs) = .error ())) →
        extractMenuFromReviews reviews gen parseArray
          = ({ dishes := [], confidence := 10 }, true)) ∧
      ((gen = .error () ∨
        (∃ t, gen = .ok t ∧ jsonSlice '\x7b' '\x7d' (trimChars t.data) = none) ∨
        (∃ t cs, gen = .ok t ∧ jsonSlice '\x7b' '\x7d' (trimChars t.data) = some cs ∧
          parseObject (String.mk cs) = .error ())) →
        extractTasteProfile reviews name gen parseObject
          = ({ flavors := [], style := "Unknown", confidence := 20 }, true))) := by
  constructor
  · intro h
    subst h
    constructor <;> rfl
  · intro hne
    have hlen : ¬ reviews.length = 0 := by
      simpa [List.length_eq_zero] using hne
    constructor
    · intro hfail
      rcases hfail with hgen | ⟨t, hgen, hslice⟩ | ⟨t, cs, hgen, hslice, hparse⟩
      · subst hgen; simp [extractMenuFromReviews, hlen]
      · subst hgen; simp [extractMenuFromReviews, hlen, hslice]
      · subst hgen; simp [extractMenuFromReviews, hlen, hslice, hparse]
    · intro hfail
      rcases hfail with hgen | ⟨t, hgen, hslice⟩ | ⟨t, cs, hgen, hslice, hparse⟩
      · subst hgen; simp [extractTasteProfile, hlen]
      · subst hgen; simp [extractTasteProfile, hlen, hslice]
      · subst hgen; simp [extractTasteProfile, hlen, hslice, hparse]

/-- C6 witness: one non-empty review with a non-JSON model reply yields
both documented failure defaults. -/
theorem claim_C6_witness :
    extractMenuFromReviews [{ text := "great food", rating := 5 }]
        (.ok "not json") (fun _ => .error ())
      = ({ dishes := [], confidence := 10 }, true) ∧
    extractTasteProfile [{ text := "great food", rating := 5 }] "Spice House"
        (.ok "not json") (fun _ => .error ())
      = ({ flavors := [], style := "Unknown", confidence := 20 }, true) :=
  ⟨((claim_C6_miner_profiler_defaults [{ text := "great food", rating := 5 }] "Spice House"
        (.ok "not json") (fun _ => .error ()) (fun _ => .error ())).2 (by simp)).1
      (Or.inr (Or.inl ⟨"not json", rfl, rfl⟩)),
   ((claim_C6_miner_profiler_defaults [{ text := "great food", rating := 5 }] "Spice House"
        (.ok "not json") (fun _ => .error ()) (fun _ => .error ())).2 (by simp)).2
      (Or.inr (Or.inl ⟨"not json", rfl, rfl⟩))⟩

/-- Concrete request body used in witness runs. -/
def bodyKfc : ReqBody :=
  { dish := some "Pizza", restaurant := some { name := "KFC" },
    latitude := some 1, longitude := some 1 }

/-- Concrete oracles where the search finds nothing. -/
def envEmpty : Oracles :=
  { placesKeySet := true, cohereKeySet := true,
    profile := .ok { cuisineType := "American" },
    search := fun _ => .ok [], details := fun _ => none, rankerGen := .ok "" }

/-- C7 counterexample: the claim's sentinel is the lowercase string
"address not specified", but the code compares case-sensitively against
"Address not specified"; for the supplied name "address not specified" the
claim demands skipping while the guard attempts profiling. -/
theorem claim_C7_counterexample :
    shouldAnalyzeSource (some { name := "address not specified" }) = true ∧
    ¬ (shouldAnalyzeSource (some { name := "address not specified" }) = false ↔
       ((some { name := "address not specified" } : Option SourceRestaurant) = none ∨
        ∃ r, (some { name := "address not specified" } : Option SourceRestaurant) = some r ∧
          r.name = "address not specified")) := by
  refine ⟨rfl, ?_⟩
  intro hiff
  have h := hiff.mpr (Or.inr ⟨{ name := "address not specified" }, rfl, rfl⟩)
  have h1 : shouldAnalyzeSource (some { name := "address not specified" }) = true := rfl
  rw [h1] at h
  cases h

/-- C7 (amended): profiling is skipped exactly when the origin restaurant
is absent or its name equals the sentinel "Address not specified"
(exact, case-sensitive match); for every other supplied name the request
path attempts the profiling call whenever it gets past validation and the
key check. -/
theorem claim_C7_profiling_guard :
    (∀ s : Option SourceRestaurant, shouldAnalyzeSource s = false ↔
      (s = none ∨ ∃ r, s = some r ∧ r.name = "Address not specified")) ∧
    (∀ (body : ReqBody) (env : Oracles),
      falsyStr body.dish = false → falsyNum body.latitude = false →
      falsyNum body.longitude = false → env.placesKeySet = true →
      (POST body env).2.profileAttempted = shouldAnalyzeSource body.restaurant) := by
  constructor
  · intro s
    cases s with
    | none => simp [shouldAnalyzeSource]
    | some r =>
      simp only [shouldAnalyzeSource, bne_eq_false_iff_eq, Option.some_ne_none, false_or]
      constructor
      · intro h; exact ⟨r, rfl, h⟩
      · rintro ⟨r', hr, hname⟩; cases hr; exact hname
  · intro body env h1 h2 h3 h4
    simp only [POST, h1, h2, h3, h4, Bool.false_eq_true, if_false, Bool.or_self,
      Bool.not_true, Bool.false_or]
    (repeat' split) <;> rfl

/-- C7 witness: a supplied non-sentinel origin name ("KFC") reaches the
profiling attempt on a validation-passing request. -/
theorem claim_C7_witness :
    (POST bodyKfc envEmpty).2.profileAttempted = shouldAnalyzeSource bodyKfc.restaurant :=
  claim_C7_profiling_guard.2 bodyKfc envEmpty rfl rfl rfl rfl

/-- Request body with a supplied equator latitude (`0`), which is falsy in
JS. -/
def bodyZeroLat : ReqBody :=
  { dish := some "Pizza", restaurant := none, latitude := some 0, longitude := some 1 }

/-- C9 counterexample: a request supplying dish, latitude and longitude is
still rejected with 400 when latitude is `0`, because the handler tests JS
falsiness (`!latitude`), not absence; so "400 exactly when dish/location is
missing" fails. -/
theorem claim_C9_counterexample :
    bodyZeroLat.dish ≠ none ∧ bodyZeroLat.latitude ≠ none ∧ bodyZeroLat.longitude ≠ none ∧
    (POST bodyZeroLat envEmpty).1.isBadRequest = true :=
  ⟨by simp [bodyZeroLat], by simp [bodyZeroLat], by simp [bodyZeroLat], rfl⟩

/-- C9 (amended): the handler returns 400 exactly when the dish field is
absent or empty, or the latitude or longitude is absent or zero (JS-falsy);
and on a 400 no upstream stage is reached (empty trace).  Requests whose
dish is a non-empty string and whose coordinates are present and non-zero
are never rejected with 400. -/
theorem claim_C9_validation (body : ReqBody) (env : Oracles) :
    ((POST body env).1.isBadRequest
      = (falsyStr body.dish || falsyNum body.latitude || falsyNum body.longitude)) ∧
    ((POST body env).1.isBadRequest = true → (POST body env).2 = ⟨false, false, false⟩) := by
  cases h1 : falsyStr body.dish with
  | true => exact ⟨by simp [POST, h1, ApiResponse.isBadRequest], fun _ => by simp [POST, h1]⟩
  | false =>
    cases h2 : (falsyNum body.latitude || falsyNum body.longitude) with
    | true =>
      exact ⟨by simp [POST, h1, h2, ApiResponse.isBadRequest], fun _ => by simp [POST, h1, h2]⟩
    | false =>
      constructor
      · simp only [POST, h1, h2, Bool.false_or, Bool.false_eq_true, if_false]
        (repeat' split) <;> rfl
      · intro hbad
        exfalso
        revert hbad
        simp only [POST, h1, h2, Bool.false_eq_true, if_false]
        (repeat' split) <;> simp [ApiResponse.isBadRequest]

/-- C9 witness: on the 400 response for the zero-latitude request, the
trace is empty — no upstream call was made. -/
theorem claim_C9_witness :
    (POST bodyZeroLat envEmpty).2 = ⟨false, false, false⟩ :=
  (claim_C9_validation bodyZeroLat envEmpty).2 rfl

/-- Request whose origin restaurant name matches the only found candidate. -/
def bodyJoes : ReqBody :=
  { dish := some "Pizza", restaurant := some { name := "Joes Diner" },
    latitude := some 1, longitude := some 1 }

/-- Oracles for which enrichment succeeds on the one candidate, whose name
contains the origin restaurant's name. -/
def envJoes : Oracles :=
  { placesKeySet := true, cohereKeySet := true, profile := .error (),
    search := fun _ => .ok [{ name := "Joes Diner", place_id := "p1" }],
    details := fun _ => some { name := "Joes Diner" }, rankerGen := .ok "no lines" }

/-- C2 counterexample: the source-exclusion filter empties a non-empty
enriched list, yet the Ranker is still invoked (on the empty list) and the
run returns a plain 200 with an empty restaurants list and no explanatory
note — the empty-check happens before the filter, not after. -/
theorem claim_C2_counterexample :
    filteredRestaurantsOf bodyJoes envJoes = [] ∧
    (POST bodyJoes envJoes).2.rankerInvoked = true ∧
    (POST bodyJoes envJoes).1 = .ok [] none := by
  refine ⟨rfl, rfl, ?_⟩
  have h : (POST bodyJoes envJoes).1
      = ApiResponse.ok ((List.mergeSort (rankedResultsOf [] []) resLE).take 15) none := rfl
  rw [h]
  simp [rankedResultsOf]

/-- The Ranker stage is reached exactly past validation, the places-key
check, and a non-empty valid-restaurant list (the check at line 109, taken
BEFORE the source-exclusion filter). -/
theorem POST_rankerInvoked (body : ReqBody) (env : Oracles) :
    (POST body env).2.rankerInvoked
      = (!falsyStr body.dish && !falsyNum body.latitude && !falsyNum body.longitude
         && env.placesKeySet && !(validRestaurantsOf body env).isEmpty) := by
  cases h1 : falsyStr body.dish with
  | true => simp [POST, h1]
  | false =>
    cases h2 : falsyNum body.latitude with
    | true => simp [POST, h1, h2]
    | false =>
      cases h3 : falsyNum body.longitude with
      | true => simp [POST, h1, h2, h3]
      | false =>
        cases h4 : env.placesKeySet with
        | false => simp [POST, h1, h2, h3, h4]
        | true =>
          cases h5 : (validRestaurantsOf body env).isEmpty with
          | true => simp [POST, h1, h2, h3, h4, h5]
          | false =>
            simp only [POST, h1, h2, h3, h4, h5, Bool.or_self, Bool.not_false,
              Bool.not_true, Bool.false_eq_true, if_false, Bool.and_self,
              Bool.and_true, Bool.true_and]
            (repeat' split) <;> rfl

/-- Parsing a ranking reply against zero restaurants trivially succeeds
with zero verdicts. -/
theorem parse_nil (t : String) : parseIntelligentAnalysisResponse t [] = .ok [] := rfl

/-- C2 (amended): the Comparative Ranker stage is reached exactly when
validation and the places-key check pass and the enriched
valid-restaurant list (computed BEFORE the source-restaurant exclusion
filter) is non-empty; on validation-passing, key-configured requests the
explicit empty/"no data" 200 result (empty restaurants list plus
explanatory note) is returned exactly when that valid list is empty; and
whenever the exclusion filter empties a non-empty valid list, the Ranker
is still invoked with the empty list and, when the ranking generation
call succeeds, the response is a plain 200 with an empty restaurants
list and no note. -/
theorem claim_C2_empty_short_circuit (body : ReqBody) (env : Oracles) :
    ((POST body env).2.rankerInvoked = true ↔
      (falsyStr body.dish = false ∧ falsyNum body.latitude = false ∧
       falsyNum body.longitude = false ∧ env.placesKeySet = true ∧
       validRestaurantsOf body env ≠ [])) ∧
    (falsyStr body.dish = false → falsyNum body.latitude = false →
     falsyNum body.longitude = false → env.placesKeySet = true →
     (validRestaurantsOf body env = [] ↔
       (POST body env).1 = .ok [] (some noDataNote))) ∧
    (∀ text, falsyStr body.dish = false → falsyNum body.latitude = false →
     falsyNum body.longitude = false → env.placesKeySet = true →
     env.cohereKeySet = true → env.rankerGen = .ok text →
     validRestaurantsOf body env ≠ [] → filteredRestaurantsOf body env = [] →
     (POST body env).1 = .ok [] none ∧ (POST body env).2.rankerInvoked = true) := by
  refine ⟨?_, ?_, ?_⟩
  · rw [POST_rankerInvoked]
    constructor
    · intro h
      simp only [Bool.and_eq_true, Bool.not_eq_true'] at h
      obtain ⟨⟨⟨⟨hd, hlat⟩, hlng⟩, hp⟩, hne⟩ := h
      refine ⟨hd, hlat, hlng, hp, fun hcon => ?_⟩
      rw [List.isEmpty_iff.mpr hcon] at hne
      cases hne
    · rintro ⟨hd, hlat, hlng, hp, hne⟩
      simp only [hd, hlat, hlng, hp, Bool.not_false, Bool.true_and, Bool.and_true,
        Bool.not_eq_true']
      rw [Bool.eq_false_iff]
      intro hcon
      exact hne (List.isEmpty_iff.mp hcon)
  · intro h1 h2 h3 h4
    constructor
    · intro hvalid
      simp [POST, h1, h2, h3, h4, hvalid, List.isEmpty_iff]
    · intro hresp
      by_cases hv : (validRestaurantsOf body env).isEmpty
      · exact List.isEmpty_iff.mp hv
      · exfalso
        revert hresp
        simp only [POST]
        (repeat' split) <;> intro hresp <;> simp_all
  · intro text h1 h2 h3 h4 hcoh hgen hvalid hfil
    have hne : (validRestaurantsOf body env).isEmpty = false := by
      rw [Bool.eq_false_iff]
      intro hcon
      exact hvalid (List.isEmpty_iff.mp hcon)
    refine ⟨?_, ?_⟩ <;>
      simp [POST, h1, h2, h3, h4, hne, hcoh, hgen, hfil, parse_nil, rankedResultsOf]

/-- C2 witness: a run finding no candidates short-circuits with the
explicit empty result and never reaches the Ranker, while the
filter-emptied run of the counterexample oracles invokes the Ranker on
the empty list and answers a plain 200. -/
theorem claim_C2_witness :
    ((POST bodyKfc envEmpty).1 = .ok [] (some noDataNote) ∧
     (POST bodyKfc envEmpty).2.rankerInvoked = false) ∧
    ((POST bodyJoes envJoes).1 = .ok [] none ∧
     (POST bodyJoes envJoes).2.rankerInvoked = true) := by
  refine ⟨⟨((claim_C2_empty_short_circuit bodyKfc envEmpty).2.1 rfl rfl rfl rfl).mp rfl, ?_⟩,
    (claim_C2_empty_short_circuit bodyJoes envJoes).2.2 "no lines"
      rfl rfl rfl rfl rfl rfl (by decide) rfl⟩
  rw [Bool.eq_false_iff]
  intro htrue
  exact ((claim_C2_empty_short_circuit bodyKfc envEmpty).1.mp htrue).2.2.2.2 rfl

/-- Transitivity of the sort comparator (confidence descending, then
rating descending). -/
theorem resLE_trans (a b c : RankedResult) (hab : resLE a b = true) (hbc : resLE b c = true) :
    resLE a c = true := by
  unfold resLE at *
  by_cases h1 : a.dishAvailability.confidence = b.dishAvailability.confidence <;>
    by_cases h2 : b.dishAvailability.confidence = c.dishAvailability.confidence
  · rw [if_neg (not_not_intro h1)] at hab
    rw [if_neg (not_not_intro h2)] at hbc
    rw [if_neg (not_not_intro (h1.trans h2))]
    exact decide_eq_true (le_trans (of_decide_eq_true hbc) (of_decide_eq_true hab))
  · rw [if_neg (not_not_intro h1)] at hab
    rw [if_pos h2] at hbc
    have hlt : c.dishAvailability.confidence < b.dishAvailability.confidence :=
      of_decide_eq_true hbc
    have hne : a.dishAvailability.confidence ≠ c.dishAvailability.confidence := by omega
    rw [if_pos hne]
    exact decide_eq_true (by omega)
  · rw [if_pos h1] at hab
    rw [if_neg (not_not_intro h2)] at hbc
    have hlt : b.dishAvailability.confidence < a.dishAvailability.confidence :=
      of_decide_eq_true hab
    have hne : a.dishAvailability.confidence ≠ c.dishAvailability.confidence := by omega
    rw [if_pos hne]
    exact decide_eq_true (by omega)
  · rw [if_pos h1] at hab
    rw [if_pos h2] at hbc
    have hlt1 : b.dishAvailability.confidence < a.dishAvailability.confidence :=
      of_decide_eq_true hab
    have hlt2 : c.dishAvailability.confidence < b.dishAvailability.confidence :=
      of_decide_eq_true hbc
    have hne : a.dishAvailability.confidence ≠ c.dishAvailability.confidence := by omega
    rw [if_pos hne]
    exact decide_eq_true (by omega)

/-- Totality of the sort comparator. -/
theorem resLE_total (a b : RankedResult) : resLE a b || resLE b a := by
  unfold resLE
  by_cases h : a.dishAvailability.confidence = b.dishAvailability.confidence
  · rw [if_neg (not_not_intro h), if_neg (not_not_intro h.symm)]
    simp only [Bool.or_eq_true, decide_eq_true_eq]
    exact le_total _ _
  · rw [if_pos h, if_pos (Ne.symm h)]
    simp only [Bool.or_eq_true, decide_eq_true_eq]
    omega

/-- What holding `resLE a b` means pointwise: ties on confidence are
ordered by rating descending, differing confidences descending. -/
theorem resLE_spec (a b : RankedResult) (h : resLE a b = true) :
    (a.dishAvailability.confidence = b.dishAvailability.confidence →
      ratingOr0 b.rating ≤ ratingOr0 a.rating) ∧
    (a.dishAvailability.confidence ≠ b.dishAvailability.confidence →
      b.dishAvailability.confidence < a.dishAvailability.confidence) := by
  unfold resLE at h
  by_cases hc : a.dishAvailability.confidence = b.dishAvailability.confidence <;>
    simp_all [decide_eq_true_eq]

/-- C3: the restaurants list of every 200 response has at most 15 entries
and is ordered by verdict confidence descending with rating descending
(missing rating read as 0) as tie-break: for any entry `a` preceding `b`,
equal confidences force `rating a ≥ rating b`, and unequal confidences
force `confidence a > confidence b` regardless of rating. -/
theorem claim_C3_sorted_truncated (body : ReqBody) (env : Oracles) :
    ((POST body env).1.restaurantsOf).length ≤ 15 ∧
    ((POST body env).1.restaurantsOf).Pairwise (fun a b =>
      (a.dishAvailability.confidence = b.dishAvailability.confidence →
        ratingOr0 b.rating ≤ ratingOr0 a.rating) ∧
      (a.dishAvailability.confidence ≠ b.dishAvailability.confidence →
        b.dishAvailability.confidence < a.dishAvailability.confidence)) := by
  simp only [POST]
  (repeat' split) <;>
    simp only [ApiResponse.restaurantsOf] <;>
    first
      | exact ⟨by simp, List.Pairwise.nil⟩
      | exact ⟨List.length_take_le _ _,
          List.Pairwise.imp (fun h => resLE_spec _ _ h)
            (List.Pairwise.sublist (List.take_sublist 15 _)
              (List.sorted_mergeSort resLE_trans resLE_total _))⟩

/-- C3 witness: the sorting/truncation facts instantiated on a concrete
run. -/
theorem claim_C3_witness :
    ((POST bodyJoes envJoes).1.restaurantsOf).length ≤ 15 ∧
    ((POST bodyJoes envJoes).1.restaurantsOf).Pairwise (fun a b =>
      (a.dishAvailability.confidence = b.dishAvailability.confidence →
        ratingOr0 b.rating ≤ ratingOr0 a.rating) ∧
      (a.dishAvailability.confidence ≠ b.dishAvailability.confidence →
        b.dishAvailability.confidence < a.dishAvailability.confidence)) :=
  claim_C3_sorted_truncated bodyJoes envJoes

/-- Equal-length lists pair every left element with some right element in
their zip. -/
theorem zip_mem_left (l1 : List α) :
    ∀ (l2 : List β), l1.length = l2.length → ∀ a ∈ l1, ∃ b, (a, b) ∈ l1.zip l2 := by
  induction l1 with
  | nil => intro l2 _ a ha; cases ha
  | cons x t ih =>
    intro l2 hlen a ha
    cases l2 with
    | nil => cases hlen
    | cons y t2 =>
      cases ha with
      | head => exact ⟨y, List.mem_cons_self _ _⟩
      | tail _ hmem =>
        obtain ⟨b, hb⟩ := ih t2 (by simpa using hlen) a hmem
        exact ⟨b, List.mem_cons_of_mem _ hb⟩

/-- The valid-restaurant list never exceeds 8 entries (enrichment cap). -/
theorem validRestaurantsOf_length_le (body : ReqBody) (env : Oracles) :
    (validRestaurantsOf body env).length ≤ 8 := by
  unfold validRestaurantsOf
  exact le_trans (List.length_filterMap_le _ _) (List.length_take_le _ _)

/-- The exclusion filter never lengthens the list. -/
theorem filteredRestaurantsOf_length_le (body : ReqBody) (env : Oracles) :
    (filteredRestaurantsOf body env).length ≤ (validRestaurantsOf body env).length := by
  unfold filteredRestaurantsOf sourceFilter
  exact List.length_filter_le _ _

/-- On success the parser returns exactly one verdict per restaurant. -/
theorem parse_ok_length (t : String) (rs : List DetailedRestaurant)
    (l : List DishAvailabilityVerdict)
    (h : parseIntelligentAnalysisResponse t rs = .ok l) : l.length = rs.length := by
  rw [parse_eq_loop] at h
  exact (parseLoop_ok_spec _ _ _ _ h).1

/-- C8: when an origin restaurant is supplied, the list passed to the
Comparative Ranker consists exactly of the enriched candidates whose names
do NOT case-insensitively contain the origin's name (matching candidates
excluded, all others retained); every restaurant in any 200 response also
avoids the origin name; and on any 200 response each retained candidate
reappears (by name and rating) in the returned list. -/
theorem claim_C8_source_exclusion (body : ReqBody) (env : Oracles) (src : SourceRestaurant)
    (hsrc : body.restaurant = some src) :
    (∀ r, r ∈ filteredRestaurantsOf body env ↔
      (r ∈ validRestaurantsOf body env ∧ containsCI r.name src.name = false)) ∧
    (∀ res ∈ (POST body env).1.restaurantsOf, containsCI res.name src.name = false) ∧
    (∀ rs note, (POST body env).1 = .ok rs note →
      ∀ r ∈ filteredRestaurantsOf body env,
        ∃ res ∈ rs, res.name = r.name ∧ res.rating = r.rating) := by
  have hmem : ∀ r, r ∈ filteredRestaurantsOf body env ↔
      (r ∈ validRestaurantsOf body env ∧ containsCI r.name src.name = false) := by
    intro r
    unfold filteredRestaurantsOf
    rw [hsrc]
    unfold sourceFilter
    rw [List.mem_filter]
    simp [Bool.not_eq_true']
  have hlenv : ∀ (verdicts : List DishAvailabilityVerdict),
      verdicts.length = (filteredRestaurantsOf body env).length →
      (rankedResultsOf (filteredRestaurantsOf body env) verdicts).length
        = (filteredRestaurantsOf body env).length := by
    intro verdicts hv
    unfold rankedResultsOf
    rw [List.length_map, List.length_zip, hv, min_self]
  refine ⟨hmem, ?_, ?_⟩
  · intro res hres
    revert hres
    simp only [POST]
    (repeat' split) <;> intro hres <;>
      first
        | (rename_i verdicts heq
           have hres' : res ∈ List.take 15
               ((rankedResultsOf (filteredRestaurantsOf body env) verdicts).mergeSort resLE) :=
             hres
           have h1 := List.mem_mergeSort.mp (List.mem_of_mem_take hres')
           obtain ⟨rv, hrv, hfeq⟩ := List.mem_map.mp h1
           rw [← hfeq]
           exact ((hmem rv.1).mp (List.of_mem_zip hrv).1).2)
        | exact (List.not_mem_nil res hres).elim
  · intro rs note hok r hr
    revert hok
    simp only [POST]
    (repeat' split) <;> intro hok <;>
      first
        | (rename_i hempty
           exfalso
           have hv : validRestaurantsOf body env = [] := List.isEmpty_iff.mp hempty
           have hmem' := ((hmem r).mp hr).1
           rw [hv] at hmem'
           cases hmem')
        | (rename_i verdicts heq
           cases hok
           have hvl : verdicts.length = (filteredRestaurantsOf body env).length :=
             parse_ok_length _ _ _ heq
           have hrl := hlenv verdicts hvl
           have h8 := validRestaurantsOf_length_le body env
           have hf := filteredRestaurantsOf_length_le body env
           have htake : (List.take 15
               ((rankedResultsOf (filteredRestaurantsOf body env) verdicts).mergeSort resLE))
               = (rankedResultsOf (filteredRestaurantsOf body env) verdicts).mergeSort resLE :=
             List.take_of_length_le (by rw [List.length_mergeSort]; omega)
           rw [htake]
           obtain ⟨v, hv⟩ := zip_mem_left _ verdicts hvl.symm r hr
           exact ⟨{ name := r.name, rating := r.rating, dishAvailability := v },
             List.mem_mergeSort.mpr (List.mem_map.mpr ⟨(r, v), hv, rfl⟩), rfl, rfl⟩)
        | exact absurd hok (fun hcon => by cases hcon)

/-- Oracles where search finds the origin restaurant and one unrelated
candidate, enrichment copies name and rating, and the ranking model
answers for the single retained restaurant. -/
def envC8 : Oracles :=
  { placesKeySet := true, cohereKeySet := true, profile := .error (),
    search := fun _ => .ok [{ name := "Joes Diner", place_id := "p1" },
                            { name := "Dragon Garden", place_id := "p2", rating := some 4 }],
    details := fun p => some { name := p.name, rating := p.rating },
    rankerGen := .ok "Restaurant 1: hasExact=true, hasSimilar=true, confidence=80, reason=great match" }

/-- On the concrete C8 run the response is a 200 carrying exactly the one
retained (non-origin) restaurant. -/
theorem postC8_eval : (POST bodyJoes envC8).1
    = .ok [{ name := "Dragon Garden", rating := some 4,
             dishAvailability := { hasExactDish := true, hasSimilarDish := true,
                                   confidence := 80, reasoning := "great match" } }] none := by
  have h : (POST bodyJoes envC8).1
      = ApiResponse.ok ((List.mergeSort
          [({ name := "Dragon Garden", rating := some 4,
              dishAvailability := { hasExactDish := true, hasSimilarDish := true,
                                    confidence := 80, reasoning := "great match" } } :
            RankedResult)] resLE).take 15) none := rfl
  rw [h]
  simp

/-- C8 witness: on the concrete run, the retained candidate "Dragon
Garden" reappears in the returned list with its name and rating. -/
theorem claim_C8_witness :
    ∃ res ∈ [({ name := "Dragon Garden", rating := some 4,
                dishAvailability := { hasExactDish := true, hasSimilarDish := true,
                                      confidence := 80, reasoning := "great match" } } :
              RankedResult)],
      res.name = ({ name := "Dragon Garden", rating := some 4 } : DetailedRestaurant).name ∧
      res.rating = ({ name := "Dragon Garden", rating := some 4 } : DetailedRestaurant).rating :=
  (claim_C8_source_exclusion bodyJoes envC8 { name := "Joes Diner" } rfl).2.2
    [{ name := "Dragon Garden", rating := some 4,
       dishAvailability := { hasExactDish := true, hasSimilarDish := true,
                             confidence := 80, reasoning := "great match" } }]
    none postC8_eval
    { name := "Dragon Garden", rating := some 4 } (by decide)
